import Mathlib

/-!
Verification of the continuous-constraint and recommendation core of the
baybe repository. Real numbers (Python floats) are modelled as rationals,
fallible operations return an `Except`, and the external collaborators
(the botorch optimizer, the acquisition function, the numpy random source)
are modelled as explicit functional parameters.
-/

namespace Baybe

/-- Modelled from the spec: `baybe/utils/interval.py` is not among the provided
sources. Per spec section 3, an `Interval` is an immutable numeric range
`{lower, upper}` with the invariant `lower <= upper`, carried here as a
hypothesis where needed. -/
structure Interval where
  lower : ℚ
  upper : ℚ
deriving DecidableEq, Repr

/-- Modelled from the spec: `baybe/parameters/numerical.py` is not among the
provided sources. Per spec section 3, a `NumericalContinuousParameter` is a
named parameter with `bounds : Interval` and a near-zero threshold. -/
structure NumericalContinuousParameter where
  name : String
  bounds : Interval
  near_zero_threshold : ℚ
deriving DecidableEq, Repr

/-- The predicate `in_inactive_range` defined inside `activate_parameter`
(`baybe/parameters/utils.py`): `-near_zero_threshold <= x <= near_zero_threshold`. -/
def in_inactive_range (p : NumericalContinuousParameter) (x : ℚ) : Prop :=
  -p.near_zero_threshold ≤ x ∧ x ≤ p.near_zero_threshold

instance (p : NumericalContinuousParameter) (x : ℚ) :
    Decidable (in_inactive_range p x) :=
  inferInstanceAs (Decidable (_ ∧ _))

/-- The error message raised by `activate_parameter` when both bounds lie in the
inactive range (`baybe/parameters/utils.py`, lines 131-136). -/
def cannotBeActiveMessage (p : NumericalContinuousParameter) : String :=
  "Parameter " ++ p.name ++ " " ++ "cannot be set active" ++
    (" since its bounds (" ++ toString p.bounds.lower ++ ", " ++
      toString p.bounds.upper ++ ") are entirely contained in the inactive range [-" ++
      toString p.near_zero_threshold ++ ", " ++ toString p.near_zero_threshold ++ "].")

/-- Embedding of `activate_parameter` (`baybe/parameters/utils.py`, lines 94-139):
moves the bounds of a parameter away from zero. The function takes only the
parameter; the inactive range is the symmetric interval given by the field
`near_zero_threshold` of the parameter itself. A raised `ValueError` becomes `Except.error`. -/
def activate_parameter (p : NumericalContinuousParameter) :
    Except String NumericalContinuousParameter :=
  let lower := p.bounds.lower
  let upper := p.bounds.upper
  -- Upper bound is in inactive range
  if lower < -p.near_zero_threshold ∧ in_inactive_range p upper then
    Except.ok { p with bounds := ⟨lower, -p.near_zero_threshold⟩ }
  -- Lower bound is in inactive range
  else if p.near_zero_threshold < upper ∧ in_inactive_range p lower then
    Except.ok { p with bounds := ⟨p.near_zero_threshold, upper⟩ }
  -- Both bounds in inactive range
  else if in_inactive_range p lower ∧ in_inactive_range p upper then
    Except.error (cannotBeActiveMessage p)
  -- Both bounds separated from inactive range
  else
    Except.ok p

deriving instance DecidableEq for Except

/-- Embedding of `ContinuousLinearConstraint` (`baybe/constraints/continuous.py`,
lines 32-101): parameter names, operator, one coefficient per parameter, and the
right-hand side. Construction-time validation (operator within the valid set,
matching list lengths) is carried as hypotheses where a theorem needs it. -/
structure ContinuousLinearConstraint where
  parameters : List String
  operator : String
  coefficients : List ℚ
  rhs : ℚ
deriving DecidableEq, Repr

/-- Embedding of `ContinuousLinearConstraint._multiplier`
(`baybe/constraints/continuous.py`, lines 72-75): -1 for the operator "<=",
else +1. -/
def ContinuousLinearConstraint._multiplier (c : ContinuousLinearConstraint) : ℚ :=
  if c.operator = "<=" then -1 else 1

/-- Embedding of `ContinuousLinearConstraint.to_botorch`
(`baybe/constraints/continuous.py`, lines 103-135): the index list keeps, for
each constrained parameter present in the given parameter sequence, its
position there plus the offset; the coefficient and rhs tensors are the
multiplier-scaled coefficients and rhs. Note that the code builds the
coefficient tensor from all of `self.coefficients`, without the membership
filter applied to the indices. -/
def ContinuousLinearConstraint.to_botorch (c : ContinuousLinearConstraint)
    (parameters : List NumericalContinuousParameter) (idx_offset : ℕ) :
    List ℕ × List ℚ × ℚ :=
  let param_names := parameters.map (fun p => p.name)
  let param_indices :=
    (c.parameters.filter (fun p => decide (p ∈ param_names))).map
      (fun p => param_names.indexOf p + idx_offset)
  (param_indices,
    c.coefficients.map (fun coef => c._multiplier * coef),
    c._multiplier * c.rhs)

/-- Embedding of `ContinuousCardinalityConstraint`
(`baybe/constraints/continuous.py`, lines 138-242) together with the fields of
its `CardinalityConstraint` base class (`min_cardinality`, `max_cardinality`;
the base class is not among the provided sources, the fields and their
invariants `0 <= min <= max <= len(parameters)` follow the spec, section 3,
and are carried as hypotheses). -/
structure ContinuousCardinalityConstraint where
  parameters : List String
  min_cardinality : ℕ
  max_cardinality : ℕ
  relative_threshold : ℚ
deriving DecidableEq, Repr

/-- The Python builtin range(start, stop) with step 1 as a list. -/
def pyRange (start stop : ℕ) : List ℕ :=
  List.range' start (stop - start)

/-- Embedding of `ContinuousCardinalityConstraint._inactive_set_sizes`
(`baybe/constraints/continuous.py`, lines 157-162):
`range(n - max_cardinality, n - min_cardinality + 1)`. -/
def ContinuousCardinalityConstraint._inactive_set_sizes
    (c : ContinuousCardinalityConstraint) : List ℕ :=
  pyRange (c.parameters.length - c.max_cardinality)
    (c.parameters.length - c.min_cardinality + 1)

/-- Embedding of `ContinuousCardinalityConstraint.n_inactive_parameter_combinations`
(`baybe/constraints/continuous.py`, lines 149-155): the sum of binomial
coefficients over all inactive set sizes. -/
def ContinuousCardinalityConstraint.n_inactive_parameter_combinations
    (c : ContinuousCardinalityConstraint) : ℕ :=
  (c._inactive_set_sizes.map (fun k => Nat.choose c.parameters.length k)).sum

/-- Embedding of `ContinuousCardinalityConstraint.inactive_parameter_combinations`
(`baybe/constraints/continuous.py`, lines 164-167): for each inactive set size,
all combinations of that many parameters. `itertools.combinations` enumerates
the size-k subsequences of the parameter tuple; `List.sublistsLen` produces the
same collection (in a different order, which no claim depends on). -/
def ContinuousCardinalityConstraint.inactive_parameter_combinations
    (c : ContinuousCardinalityConstraint) : List (List String) :=
  (c._inactive_set_sizes.map (fun k => List.sublistsLen k c.parameters)).flatten

/-- Embedding of `ContinuousCardinalityConstraint.get_threshold`
(`baybe/constraints/continuous.py`, lines 207-242). -/
def ContinuousCardinalityConstraint.get_threshold
    (c : ContinuousCardinalityConstraint)
    (parameter : NumericalContinuousParameter) : Except String Interval :=
  if parameter.name ∉ c.parameters then
    Except.error ("The given parameter with name: " ++ parameter.name ++
      " cannot be found in the parameter list.")
  else
    Except.ok ⟨c.relative_threshold * parameter.bounds.lower,
      c.relative_threshold * parameter.bounds.upper⟩

/-- Embedding of `ContinuousCardinalityConstraint.sample_inactive_parameters`
(`baybe/constraints/continuous.py`, lines 169-205). The numpy random source is
modelled as a stream `rng` of naturals, two entries per batch element.
`np.random.choice(arange(min_cardinality, max_cardinality+1), p=probabilities)`
returns an element of its support; since every probability there is positive
(each is a positive binomial count divided by their sum), the support is the
whole cardinality range, and the draw is modelled as picking the entry at a
random index. `np.random.choice(parameters, n_inactive, replace=False)` returns
`n_inactive` distinct parameters, modelled as picking one of the size-
`n_inactive` subsets at a random index. -/
def ContinuousCardinalityConstraint.sampledActiveCount
    (c : ContinuousCardinalityConstraint) (r1 : ℕ) : ℕ :=
  (pyRange c.min_cardinality (c.max_cardinality + 1)).getD
    (r1 % (pyRange c.min_cardinality (c.max_cardinality + 1)).length) 0

def ContinuousCardinalityConstraint.sampleOneInactiveSet
    (c : ContinuousCardinalityConstraint) (r1 r2 : ℕ) : List String :=
  (List.sublistsLen (c.parameters.length - c.sampledActiveCount r1)
      c.parameters).getD
    (r2 % (List.sublistsLen (c.parameters.length - c.sampledActiveCount r1)
      c.parameters).length) []

def ContinuousCardinalityConstraint.sample_inactive_parameters
    (c : ContinuousCardinalityConstraint) (batch_size : ℕ) (rng : ℕ → ℕ) :
    List (List String) :=
  (List.range batch_size).map (fun i =>
    c.sampleOneInactiveSet (rng (2 * i)) (rng (2 * i + 1)))

/-- Example constraint instance used by the witnesses below. -/
def cEx : ContinuousCardinalityConstraint := ⟨["a", "b", "c"], 1, 2, mkRat 1 2⟩

/-- Example parameter instance used by the witnesses below. -/
def pEx : NumericalContinuousParameter := ⟨"a", ⟨-1, 2⟩, 0⟩

/-- Modelled from the spec: the acquisition function is an external collaborator
(spec section 6) exposing a capability flag for Monte-Carlo batch evaluation,
read as `self.acquisition_function.is_mc` in
`baybe/recommenders/pure/bayesian/botorch.py`. -/
structure AcquisitionFunction where
  is_mc : Bool
deriving DecidableEq, Repr

/-- The message of the `NoMCAcquisitionFunctionError` raised by the three
recommendation paths of `BotorchRecommender`
(`baybe/recommenders/pure/bayesian/botorch.py`, lines 101-105, 151-155,
319-323). -/
def noMCMessage : String :=
  "The BotorchRecommender only works with Monte Carlo acquisition functions for batch sizes > 1."

/-- The error raised by the recommender before any optimizer call when a
non-Monte-Carlo acquisition function is combined with a batch size above 1
(`NoMCAcquisitionFunctionError` in `baybe/exceptions.py`; the spec names the
same error kind `IncompatibleAcquisitionFunctionError`). -/
inductive RecommenderError where
  | noMCAcquisitionFunction (msg : String)
deriving DecidableEq, Repr

/-- Embedding of `N_ITER_THRESHOLD`
(`baybe/recommenders/pure/bayesian/botorch.py`, line 24). -/
def N_ITER_THRESHOLD : ℕ := 10

/-- Model of `torch.argmax` over a one-dimensional tensor: the index of the
first maximal entry (torch returns the first occurrence when the maximum is
attained several times). -/
def torchArgmax (l : List ℚ) : ℕ :=
  match l.maximum with
  | none => 0
  | some m => l.findIdx (fun v => decide (v = m))

/-- Modelled from the spec: the data the continuous recommendation path of
`BotorchRecommender._recommend_continuous` reads from its collaborators, which
are not part of the provided sources. `has_cardinality` models
`len(subspace_continuous.constraints_cardinality) > 0`; `configs` models the
enumeration `subspace_continuous.combinatorial_zero_parameters` (flattened per
configuration, code lines 252-260), whose size is
`combinatorial_counts_zero_parameters`; `sample` models the outcomes of the
independent draws `subspace_continuous._sample_inactive_parameters(1)[0]`;
`optimize` models the external `optimize_acqf` call issued by
`_recommend_continuous_with_inactive_parameters` for a given inactive-parameter
configuration, returning a point set and its acquisition value; and
`optimize_plain` models the same call when no cardinality constraint exists. -/
structure ContinuousSubspaceModel (α : Type) where
  has_cardinality : Bool
  configs : List (List String)
  sample : ℕ → List String
  optimize : List String → α × ℚ
  optimize_plain : α × ℚ

/-- Embedding of the cardinality branch of
`BotorchRecommender._recommend_continuous`
(`baybe/recommenders/pure/bayesian/botorch.py`, lines 213-279): when the
combinatorial count exceeds `N_ITER_THRESHOLD`, evaluate `N_ITER_THRESHOLD`
independently sampled inactive-parameter configurations, otherwise evaluate
every configuration of the full enumeration; record one (points, acquisition
value) pair per configuration, and return the points at the argmax of the
recorded acquisition values. -/
def recommend_continuous_cardinality {α : Type} (s : ContinuousSubspaceModel α) :
    List (α × ℚ) × Option α :=
  let chosen := if s.configs.length > N_ITER_THRESHOLD
    then (List.range N_ITER_THRESHOLD).map s.sample
    else s.configs
  let records := chosen.map s.optimize
  (records, (records.get? (torchArgmax (records.map Prod.snd))).map Prod.fst)

/-- Embedding of `BotorchRecommender._recommend_continuous`
(`baybe/recommenders/pure/bayesian/botorch.py`, lines 130-288), instrumented
with the number of external optimizer calls (second component). The
Monte-Carlo guard is the first statement of the function body. -/
def recommend_continuous {α : Type} (acqf : AcquisitionFunction)
    (batch_size : ℕ) (s : ContinuousSubspaceModel α) :
    Except RecommenderError (Option α) × ℕ :=
  if 1 < batch_size ∧ acqf.is_mc = false then
    (Except.error (RecommenderError.noMCAcquisitionFunction noMCMessage), 0)
  else if s.has_cardinality then
    let r := recommend_continuous_cardinality s
    (Except.ok r.2, r.1.length)
  else
    (Except.ok (some s.optimize_plain.1), 1)

/-- Embedding of `BotorchRecommender._recommend_discrete`
(`baybe/recommenders/pure/bayesian/botorch.py`, lines 77-128), instrumented
with the number of external optimizer calls. The external
`optimize_acqf_discrete` call and the dataframe index matching that follows it
are opaque collaborators. -/
def recommend_discrete {α β : Type} (acqf : AcquisitionFunction)
    (batch_size : ℕ) (candidates : List α)
    (optimize_acqf_discrete : ℕ → List α → β) (match_indices : β → List ℕ) :
    Except RecommenderError (List ℕ) × ℕ :=
  if 1 < batch_size ∧ acqf.is_mc = false then
    (Except.error (RecommenderError.noMCAcquisitionFunction noMCMessage), 0)
  else
    (Except.ok (match_indices (optimize_acqf_discrete batch_size candidates)), 1)

/-- Embedding of `BotorchRecommender._recommend_hybrid`
(`baybe/recommenders/pure/bayesian/botorch.py`, lines 290-399), instrumented
with the number of external optimizer calls. The external
`optimize_acqf_mixed` call and the merging of discrete and continuous result
columns that follows it are opaque collaborators. -/
def recommend_hybrid {β γ : Type} (acqf : AcquisitionFunction)
    (batch_size : ℕ) (optimize_acqf_mixed : ℕ → β) (merge_results : β → γ) :
    Except RecommenderError γ × ℕ :=
  if 1 < batch_size ∧ acqf.is_mc = false then
    (Except.error (RecommenderError.noMCAcquisitionFunction noMCMessage), 0)
  else
    (Except.ok (merge_results (optimize_acqf_mixed batch_size)), 1)

/-- Example continuous-subspace instance used by the witnesses below: two
inactive-parameter configurations, an optimizer scoring each configuration by
its size. -/
def sEx : ContinuousSubspaceModel ℕ :=
  ⟨true, [["a"], ["b"]], (fun _ => []),
    (fun cfg => (cfg.length, (cfg.length : ℚ))), (0, 0)⟩

end Baybe

namespace Baybe

/-- C8: activation follows four mutually exclusive cases: clip the upper bound
down to the lower dead-zone edge when the upper bound is inside the dead zone
and the lower bound below it; else clip the lower bound up to the upper
dead-zone edge when the lower bound is inside and the upper bound above; else
fail with a ValueError matching "cannot be set active" when both bounds are
inside; else return the parameter unchanged. -/
theorem C8_activation_cases (p : NumericalContinuousParameter) :
    (in_inactive_range p p.bounds.upper ∧ p.bounds.lower < -p.near_zero_threshold →
      activate_parameter p =
        Except.ok { p with bounds := ⟨p.bounds.lower, -p.near_zero_threshold⟩ }) ∧
    (in_inactive_range p p.bounds.lower ∧ p.near_zero_threshold < p.bounds.upper →
      activate_parameter p =
        Except.ok { p with bounds := ⟨p.near_zero_threshold, p.bounds.upper⟩ }) ∧
    (in_inactive_range p p.bounds.lower ∧ in_inactive_range p p.bounds.upper →
      ∃ pre post,
        activate_parameter p = Except.error (pre ++ "cannot be set active" ++ post)) ∧
    (¬ in_inactive_range p p.bounds.lower ∧ ¬ in_inactive_range p p.bounds.upper →
      activate_parameter p = Except.ok p) := by
  refine ⟨?_, ?_, ?_, ?_⟩
  · rintro ⟨hu, hl⟩
    rw [activate_parameter]
    rw [if_pos (And.intro hl hu)]
  · rintro ⟨hl, hu⟩
    rw [activate_parameter]
    rw [if_neg (fun hc => absurd hl.1 (not_le.mpr hc.1)),
      if_pos (And.intro hu hl)]
  · rintro ⟨hl, hu⟩
    refine ⟨"Parameter " ++ p.name ++ " ",
      " since its bounds (" ++ toString p.bounds.lower ++ ", " ++
        toString p.bounds.upper ++ ") are entirely contained in the inactive range [-" ++
        toString p.near_zero_threshold ++ ", " ++ toString p.near_zero_threshold ++ "].",
      ?_⟩
    rw [activate_parameter]
    rw [if_neg (fun hc => absurd hl.1 (not_le.mpr hc.1)),
      if_neg (fun hc => absurd hu.2 (not_le.mpr hc.1)),
      if_pos (And.intro hl hu), cannotBeActiveMessage, String.append_assoc]
  · rintro ⟨hl, hu⟩
    rw [activate_parameter]
    rw [if_neg (fun hc => hu hc.2), if_neg (fun hc => hl hc.2),
      if_neg (fun hc => hl hc.1)]

/-- Witness for C8: a parameter with bounds (-2, 0) and near-zero threshold 1
falls into the first case and has its upper bound clipped to -1. -/
theorem C8_activation_cases_witness :
    activate_parameter ⟨"x", ⟨-2, 0⟩, 1⟩ =
      Except.ok ⟨"x", ⟨-2, -1⟩, 1⟩ :=
  (C8_activation_cases ⟨"x", ⟨-2, 0⟩, 1⟩).1 (by decide)

/-- C3 counterexample: activation succeeds on a parameter with bounds (-2, 2)
and near-zero threshold 1, returning it unchanged; the returned value range
contains the whole dead zone [-1, 1] and contains 0 in its interior,
contradicting the claim that the result always excludes zero. -/
theorem C3_counterexample :
    activate_parameter ⟨"x", ⟨-2, 2⟩, 1⟩ = Except.ok ⟨"x", ⟨-2, 2⟩, 1⟩ ∧
    ((-2 : ℚ) < 0 ∧ (0 : ℚ) < 2) ∧ ((-2 : ℚ) ≤ -1 ∧ (1 : ℚ) ≤ 2) := by
  refine ⟨by decide, by norm_num, by norm_num⟩

/-- C3 amended: when activation succeeds, neither returned bound lies strictly
inside the open dead zone; the returned interval can nevertheless still contain
zero (and the entire dead zone), namely when both original bounds already lie
strictly outside and the parameter is returned unchanged. -/
theorem C3_activation_bounds (p q : NumericalContinuousParameter)
    (hb : p.bounds.lower ≤ p.bounds.upper)
    (h : activate_parameter p = Except.ok q) :
    (q.bounds.lower ≤ -q.near_zero_threshold ∨ q.near_zero_threshold ≤ q.bounds.lower) ∧
    (q.bounds.upper ≤ -q.near_zero_threshold ∨ q.near_zero_threshold ≤ q.bounds.upper) := by
  rw [activate_parameter] at h
  split_ifs at h with h1 h2 h3
  · obtain ⟨hl, hu⟩ := h1
    cases h
    exact ⟨Or.inl hl.le, Or.inl le_rfl⟩
  · obtain ⟨hu, hl⟩ := h2
    cases h
    exact ⟨Or.inr le_rfl, Or.inr hu.le⟩
  · cases h
    constructor
    · by_contra hc
      push_neg at hc
      obtain ⟨hc1, hc2⟩ := hc
      have hlin : in_inactive_range p p.bounds.lower := ⟨by linarith, by linarith⟩
      have hule : p.bounds.upper ≤ p.near_zero_threshold := by
        by_contra hgt
        exact h2 ⟨not_le.mp hgt, hlin⟩
      exact h3 ⟨hlin, ⟨by linarith, hule⟩⟩
    · by_contra hc
      push_neg at hc
      obtain ⟨hc1, hc2⟩ := hc
      have huin : in_inactive_range p p.bounds.upper := ⟨by linarith, by linarith⟩
      have hlge : -p.near_zero_threshold ≤ p.bounds.lower := by
        by_contra hlt
        exact h1 ⟨not_le.mp hlt, huin⟩
      exact h3 ⟨⟨hlge, by linarith⟩, huin⟩

/-- Witness for C3 amended: a parameter with bounds (-2, 0) and threshold 1
activates to bounds (-2, -1), whose endpoints are outside the open dead zone. -/
theorem C3_activation_bounds_witness :
    ((-2 : ℚ) ≤ -1 ∨ (1 : ℚ) ≤ -2) ∧ ((-1 : ℚ) ≤ -1 ∨ (1 : ℚ) ≤ -1) :=
  C3_activation_bounds ⟨"x", ⟨-2, 0⟩, 1⟩ ⟨"x", ⟨-2, -1⟩, 1⟩ (by norm_num) (by decide)

/-- C4: the code evaluated at a parameter whose bounds (1, 2) do not straddle
zero returns successfully instead of raising a ValueError mentioning that the
parameter bounds must cover zero; the code has no coverage checks at all
(which contradicts the tests of the repository itself in
`tests/utils/test_parameters.py`). -/
theorem C4_code_eval :
    activate_parameter ⟨"x", ⟨1, 2⟩, 1⟩ = Except.ok ⟨"x", ⟨1, 2⟩, 1⟩ := by decide

/-- C10: activation is idempotent on its success domain: if activation of `p`
succeeds with result `q`, then activating `q` succeeds and returns `q` itself. -/
theorem C10_activation_idempotent (p q : NumericalContinuousParameter)
    (h : activate_parameter p = Except.ok q) :
    activate_parameter q = Except.ok q := by
  rw [activate_parameter] at h
  split_ifs at h with h1 h2 h3
  · obtain ⟨hl, hu⟩ := h1
    cases h
    rw [activate_parameter]
    split_ifs with g1 g2 g3 <;>
      first
      | rfl
      | exact absurd ⟨hl, le_refl _, le_trans hu.1 hu.2⟩ g1
  · obtain ⟨hu, hl⟩ := h2
    cases h
    rw [activate_parameter]
    split_ifs with g1 g2 g3 <;>
      first
      | rfl
      | exact absurd g1.1 (not_lt.mpr (le_trans hl.1 hl.2))
      | exact absurd ⟨hu, le_trans hl.1 hl.2, le_refl _⟩ g2
  · cases h
    rw [activate_parameter]
    split_ifs
    rfl

/-- Witness for C10: activating the already-activated parameter with bounds
(-2, -1) and threshold 1 returns it unchanged. -/
theorem C10_activation_idempotent_witness :
    activate_parameter ⟨"x", ⟨-2, -1⟩, 1⟩ = Except.ok ⟨"x", ⟨-2, -1⟩, 1⟩ :=
  C10_activation_idempotent ⟨"x", ⟨-2, 0⟩, 1⟩ ⟨"x", ⟨-2, -1⟩, 1⟩ (by decide)

/-- Clips the given index into the list by taking it modulo the length: the
selected element is a member of the list. -/
theorem getD_mod_mem {α : Type} (l : List α) (i : ℕ) (d : α) (h : 0 < l.length) :
    l.getD (i % l.length) d ∈ l := by
  have hlt : i % l.length < l.length := Nat.mod_lt _ h
  rw [List.getD_eq_getElem l d hlt]
  exact List.getElem_mem hlt

theorem mem_pyRange_bounds {lo hi m : ℕ} (h : m ∈ pyRange lo hi) :
    lo ≤ m ∧ m < hi := by
  rw [pyRange] at h
  have := List.mem_range'_1.mp h
  omega

theorem sampledActiveCount_bounds (c : ContinuousCardinalityConstraint)
    (r1 : ℕ) (hab : c.min_cardinality ≤ c.max_cardinality) :
    c.min_cardinality ≤ c.sampledActiveCount r1 ∧
    c.sampledActiveCount r1 ≤ c.max_cardinality := by
  have hcl : 0 < (pyRange c.min_cardinality (c.max_cardinality + 1)).length := by
    simp only [pyRange, List.length_range']
    omega
  have hk : c.sampledActiveCount r1 ∈
      pyRange c.min_cardinality (c.max_cardinality + 1) :=
    getD_mod_mem _ _ _ hcl
  have := mem_pyRange_bounds hk
  omega

theorem sampleOneInactiveSet_spec (c : ContinuousCardinalityConstraint)
    (r1 r2 : ℕ) (hnd : c.parameters.Nodup)
    (hab : c.min_cardinality ≤ c.max_cardinality) :
    (c.sampleOneInactiveSet r1 r2).Nodup ∧
    (∀ x ∈ c.sampleOneInactiveSet r1 r2, x ∈ c.parameters) ∧
    c.parameters.length - c.max_cardinality ≤ (c.sampleOneInactiveSet r1 r2).length ∧
    (c.sampleOneInactiveSet r1 r2).length ≤
      c.parameters.length - c.min_cardinality := by
  have hkr := sampledActiveCount_bounds c r1 hab
  have hsl : 0 < (List.sublistsLen
      (c.parameters.length - c.sampledActiveCount r1) c.parameters).length := by
    rw [List.length_sublistsLen]
    exact Nat.choose_pos (Nat.sub_le _ _)
  have hmem : c.sampleOneInactiveSet r1 r2 ∈
      List.sublistsLen (c.parameters.length - c.sampledActiveCount r1) c.parameters :=
    getD_mod_mem _ r2 ([] : List String) hsl
  obtain ⟨hsub, hslen⟩ := List.mem_sublistsLen.mp hmem
  exact ⟨hsub.nodup hnd, fun x hx => hsub.subset hx, by omega, by omega⟩

/-- The sum of a function over Python range(lo, lo+len) as a Finset sum. -/
theorem sum_map_range' (f : ℕ → ℕ) :
    ∀ (len lo : ℕ),
      ((List.range' lo len).map f).sum = ∑ i in Finset.range len, f (lo + i) := by
  intro len
  induction len with
  | zero => intro lo; simp
  | succ n ih =>
    intro lo
    rw [List.range'_succ, List.map_cons, List.sum_cons, ih (lo + 1),
      Finset.sum_range_succ']
    simp only [Nat.add_zero]
    rw [Nat.add_comm]
    congr 1
    refine Finset.sum_congr rfl fun i _ => ?_
    congr 1
    omega

theorem sum_pyRange_Icc (f : ℕ → ℕ) (lo hi : ℕ) :
    ((pyRange lo (hi + 1)).map f).sum = ∑ k in Finset.Icc lo hi, f k := by
  rw [pyRange, sum_map_range', ← Nat.Ico_succ_right, Finset.sum_Ico_eq_sum_range]

/-- C1 counterexample: a ">=" constraint over parameters "a" and "b" with
coefficients [1, 2], exported against a parameter sequence containing only "a",
yields an index list of length 1 but a coefficient list of length 2: the
dropped parameter is removed from the index list only, so the two lists do not
have equal length as claimed. -/
theorem C1_counterexample :
    ((ContinuousLinearConstraint.mk ["a", "b"] ">=" [1, 2] 0).to_botorch
        [⟨"a", ⟨0, 1⟩, 0⟩] 0).1.length = 1 ∧
    ((ContinuousLinearConstraint.mk ["a", "b"] ">=" [1, 2] 0).to_botorch
        [⟨"a", ⟨0, 1⟩, 0⟩] 0).2.1.length = 2 := by decide

/-- C1 amended: `to_botorch` drops missing parameters from the index list only;
the returned coefficient list is the sign multiplier times the full original
coefficient list (so in particular the j-th coefficient is the multiplier times
the original j-th coefficient), the rhs is the multiplier times the original
rhs, and the index and coefficient lists have equal length whenever every
constrained parameter appears in the given parameter sequence. -/
theorem C1_to_botorch_coefficients (c : ContinuousLinearConstraint)
    (parameters : List NumericalContinuousParameter) (idx_offset : ℕ)
    (hlen : c.coefficients.length = c.parameters.length) :
    (c.to_botorch parameters idx_offset).2.1 =
      c.coefficients.map (fun x => c._multiplier * x) ∧
    (c.to_botorch parameters idx_offset).2.2 = c._multiplier * c.rhs ∧
    ((∀ p ∈ c.parameters, p ∈ parameters.map (fun q => q.name)) →
      (c.to_botorch parameters idx_offset).1.length =
        (c.to_botorch parameters idx_offset).2.1.length) := by
  refine ⟨rfl, rfl, fun hall => ?_⟩
  simp only [ContinuousLinearConstraint.to_botorch, List.length_map]
  rw [List.filter_eq_self.mpr (fun a ha => by simpa using hall a ha), hlen]

/-- Witness for C1 amended: the export of the same constraint against a
parameter sequence containing both "a" and "b". -/
theorem C1_witness :
    ([1, 2] : List ℚ).length = (["a", "b"] : List String).length ∧
    (((ContinuousLinearConstraint.mk ["a", "b"] ">=" [1, 2] 0).to_botorch
        [⟨"a", ⟨0, 1⟩, 0⟩, ⟨"b", ⟨0, 1⟩, 0⟩] 0).2.1 =
      ([1, 2] : List ℚ).map
        (fun x => (ContinuousLinearConstraint.mk ["a", "b"] ">=" [1, 2] 0)._multiplier * x) ∧
    ((ContinuousLinearConstraint.mk ["a", "b"] ">=" [1, 2] 0).to_botorch
        [⟨"a", ⟨0, 1⟩, 0⟩, ⟨"b", ⟨0, 1⟩, 0⟩] 0).2.2 =
      (ContinuousLinearConstraint.mk ["a", "b"] ">=" [1, 2] 0)._multiplier * 0 ∧
    ((∀ p ∈ (["a", "b"] : List String),
        p ∈ ([⟨"a", ⟨0, 1⟩, 0⟩, ⟨"b", ⟨0, 1⟩, 0⟩] :
          List NumericalContinuousParameter).map (fun q => q.name)) →
      ((ContinuousLinearConstraint.mk ["a", "b"] ">=" [1, 2] 0).to_botorch
          [⟨"a", ⟨0, 1⟩, 0⟩, ⟨"b", ⟨0, 1⟩, 0⟩] 0).1.length =
        ((ContinuousLinearConstraint.mk ["a", "b"] ">=" [1, 2] 0).to_botorch
            [⟨"a", ⟨0, 1⟩, 0⟩, ⟨"b", ⟨0, 1⟩, 0⟩] 0).2.1.length)) :=
  ⟨by decide,
    C1_to_botorch_coefficients (ContinuousLinearConstraint.mk ["a", "b"] ">=" [1, 2] 0)
      [⟨"a", ⟨0, 1⟩, 0⟩, ⟨"b", ⟨0, 1⟩, 0⟩] 0 (by decide)⟩

/-- C5 counterexample: for a constraint with relative threshold 1/2 and a
member parameter with bounds (1, 2), `get_threshold` returns the interval
[1/2, 1], which does not contain 0, contradicting the claim that the returned
interval always contains 0. -/
theorem C5_counterexample :
    (ContinuousCardinalityConstraint.mk ["a"] 0 1 (mkRat 1 2)).get_threshold
        ⟨"a", ⟨1, 2⟩, 0⟩ = Except.ok ⟨mkRat 1 2, 1⟩ ∧
    ¬((mkRat 1 2 : ℚ) ≤ 0 ∧ (0 : ℚ) ≤ 1) := by
  constructor
  · rw [ContinuousCardinalityConstraint.get_threshold, if_neg (by simp)]
    norm_num [Rat.mkRat_eq_div, Interval.mk.injEq]
  · norm_num [Rat.mkRat_eq_div]

/-- C5 amended: for a member parameter, `get_threshold` returns the interval
with endpoints `relative_threshold * bounds.lower` and
`relative_threshold * bounds.upper`; these are ordered whenever the bounds
are, and the interval contains 0 exactly when the parameter bounds contain 0
(not always, as claimed); for a non-member parameter the operation fails. -/
theorem C5_get_threshold (c : ContinuousCardinalityConstraint)
    (p : NumericalContinuousParameter) (hrt : 0 < c.relative_threshold) :
    (p.name ∈ c.parameters →
      c.get_threshold p =
        Except.ok ⟨c.relative_threshold * p.bounds.lower,
          c.relative_threshold * p.bounds.upper⟩ ∧
      (p.bounds.lower ≤ p.bounds.upper →
        c.relative_threshold * p.bounds.lower ≤ c.relative_threshold * p.bounds.upper) ∧
      ((c.relative_threshold * p.bounds.lower ≤ 0 ∧
          0 ≤ c.relative_threshold * p.bounds.upper) ↔
        (p.bounds.lower ≤ 0 ∧ 0 ≤ p.bounds.upper))) ∧
    (p.name ∉ c.parameters → ∃ msg, c.get_threshold p = Except.error msg) := by
  constructor
  · intro hmem
    refine ⟨?_, ?_, ?_⟩
    · rw [ContinuousCardinalityConstraint.get_threshold, if_neg (not_not_intro hmem)]
    · intro hb
      exact mul_le_mul_of_nonneg_left hb hrt.le
    · constructor
      · rintro ⟨h1, h2⟩
        constructor
        · by_contra hpos
          push_neg at hpos
          exact absurd h1 (not_le.mpr (mul_pos hrt hpos))
        · by_contra hneg
          push_neg at hneg
          exact absurd h2 (not_le.mpr (mul_neg_of_pos_of_neg hrt hneg))
      · rintro ⟨h1, h2⟩
        exact ⟨mul_nonpos_of_nonneg_of_nonpos hrt.le h1, mul_nonneg hrt.le h2⟩
  · intro hmem
    exact ⟨_, by rw [ContinuousCardinalityConstraint.get_threshold, if_pos hmem]⟩

/-- Witness for C5 amended: the example constraint (threshold 1/2) and the
member parameter "a" with bounds (-1, 2). -/
theorem C5_get_threshold_witness :
    (0 : ℚ) < cEx.relative_threshold ∧
    ((pEx.name ∈ cEx.parameters →
      cEx.get_threshold pEx =
        Except.ok ⟨cEx.relative_threshold * pEx.bounds.lower,
          cEx.relative_threshold * pEx.bounds.upper⟩ ∧
      (pEx.bounds.lower ≤ pEx.bounds.upper →
        cEx.relative_threshold * pEx.bounds.lower ≤
          cEx.relative_threshold * pEx.bounds.upper) ∧
      ((cEx.relative_threshold * pEx.bounds.lower ≤ 0 ∧
          0 ≤ cEx.relative_threshold * pEx.bounds.upper) ↔
        (pEx.bounds.lower ≤ 0 ∧ 0 ≤ pEx.bounds.upper))) ∧
    (pEx.name ∉ cEx.parameters → ∃ msg, cEx.get_threshold pEx = Except.error msg)) :=
  ⟨by decide, C5_get_threshold cEx pEx (by decide)⟩

/-- C7: the inactive-combinations enumeration of a cardinality constraint over
n distinct parameters with cardinalities a <= b yields exactly
sum over k in [n-b, n-a] of C(n,k) subsets, pairwise distinct, each of size
between n-b and n-a and each consisting of constrained parameters, and
`n_inactive_parameter_combinations` equals the same sum. -/
theorem C7_inactive_combinations (c : ContinuousCardinalityConstraint)
    (hnd : c.parameters.Nodup) :
    c.inactive_parameter_combinations.length =
      ∑ k in Finset.Icc (c.parameters.length - c.max_cardinality)
        (c.parameters.length - c.min_cardinality), Nat.choose c.parameters.length k ∧
    c.inactive_parameter_combinations.Nodup ∧
    (∀ s ∈ c.inactive_parameter_combinations,
      c.parameters.length - c.max_cardinality ≤ s.length ∧
      s.length ≤ c.parameters.length - c.min_cardinality ∧
      ∀ x ∈ s, x ∈ c.parameters) ∧
    c.n_inactive_parameter_combinations =
      ∑ k in Finset.Icc (c.parameters.length - c.max_cardinality)
        (c.parameters.length - c.min_cardinality), Nat.choose c.parameters.length k := by
  refine ⟨?_, ?_, ?_, ?_⟩
  · simp only [ContinuousCardinalityConstraint.inactive_parameter_combinations]
    rw [List.length_flatten, List.map_map]
    have hcomp : (List.length ∘ fun k => List.sublistsLen k c.parameters) =
        fun k => Nat.choose c.parameters.length k :=
      funext fun k => List.length_sublistsLen k c.parameters
    rw [hcomp, ContinuousCardinalityConstraint._inactive_set_sizes, sum_pyRange_Icc]
  · simp only [ContinuousCardinalityConstraint.inactive_parameter_combinations]
    rw [List.nodup_flatten]
    constructor
    · intro l hl
      obtain ⟨k, hk, rfl⟩ := List.mem_map.mp hl
      exact List.nodup_sublistsLen k hnd
    · rw [List.pairwise_map]
      refine List.Pairwise.imp ?_ (List.pairwise_lt_range' _ _)
      intro k1 k2 hlt s hs1 hs2
      have h1 := (List.mem_sublistsLen.mp hs1).2
      have h2 := (List.mem_sublistsLen.mp hs2).2
      omega
  · intro s hs
    simp only [ContinuousCardinalityConstraint.inactive_parameter_combinations] at hs
    obtain ⟨l, hl, hsl⟩ := List.mem_flatten.mp hs
    obtain ⟨k, hk, rfl⟩ := List.mem_map.mp hl
    obtain ⟨hsub, hslen⟩ := List.mem_sublistsLen.mp hsl
    simp only [ContinuousCardinalityConstraint._inactive_set_sizes, pyRange] at hk
    have hkr := List.mem_range'_1.mp hk
    exact ⟨by omega, by omega, fun x hx => hsub.subset hx⟩
  · simp only [ContinuousCardinalityConstraint.n_inactive_parameter_combinations,
      ContinuousCardinalityConstraint._inactive_set_sizes]
    rw [sum_pyRange_Icc]

/-- Witness for C7: the example constraint over three distinct parameters with
cardinalities between 1 and 2. -/
theorem C7_witness :
    cEx.parameters.Nodup ∧
    (cEx.inactive_parameter_combinations.length =
      ∑ k in Finset.Icc (cEx.parameters.length - cEx.max_cardinality)
        (cEx.parameters.length - cEx.min_cardinality),
          Nat.choose cEx.parameters.length k ∧
    cEx.inactive_parameter_combinations.Nodup ∧
    (∀ s ∈ cEx.inactive_parameter_combinations,
      cEx.parameters.length - cEx.max_cardinality ≤ s.length ∧
      s.length ≤ cEx.parameters.length - cEx.min_cardinality ∧
      ∀ x ∈ s, x ∈ cEx.parameters) ∧
    cEx.n_inactive_parameter_combinations =
      ∑ k in Finset.Icc (cEx.parameters.length - cEx.max_cardinality)
        (cEx.parameters.length - cEx.min_cardinality),
          Nat.choose cEx.parameters.length k) :=
  ⟨by decide, C7_inactive_combinations cEx (by decide)⟩

/-- C9: for every batch size and every outcome of the random source, sampling
inactive parameter sets returns exactly `batch_size` sets, each consisting of
distinct constrained parameters, of size between n - max_cardinality and
n - min_cardinality. -/
theorem C9_sample_inactive (c : ContinuousCardinalityConstraint)
    (batch_size : ℕ) (rng : ℕ → ℕ) (hnd : c.parameters.Nodup)
    (hab : c.min_cardinality ≤ c.max_cardinality) :
    (c.sample_inactive_parameters batch_size rng).length = batch_size ∧
    ∀ s ∈ c.sample_inactive_parameters batch_size rng,
      s.Nodup ∧ (∀ x ∈ s, x ∈ c.parameters) ∧
      c.parameters.length - c.max_cardinality ≤ s.length ∧
      s.length ≤ c.parameters.length - c.min_cardinality := by
  constructor
  · simp [ContinuousCardinalityConstraint.sample_inactive_parameters]
  · intro s hs
    simp only [ContinuousCardinalityConstraint.sample_inactive_parameters,
      List.mem_map] at hs
    obtain ⟨i, hi, rfl⟩ := hs
    exact sampleOneInactiveSet_spec c _ _ hnd hab

/-- Witness for C9: sampling three sets from the example constraint with a
concrete random stream. -/
theorem C9_sample_inactive_witness :
    cEx.parameters.Nodup ∧ cEx.min_cardinality ≤ cEx.max_cardinality ∧
    ((cEx.sample_inactive_parameters 3 (fun n => n * 7)).length = 3 ∧
    ∀ s ∈ cEx.sample_inactive_parameters 3 (fun n => n * 7),
      s.Nodup ∧ (∀ x ∈ s, x ∈ cEx.parameters) ∧
      cEx.parameters.length - cEx.max_cardinality ≤ s.length ∧
      s.length ≤ cEx.parameters.length - cEx.min_cardinality) :=
  ⟨by decide, by decide, C9_sample_inactive cEx 3 (fun n => n * 7) (by decide) (by decide)⟩

/-- First-max characterization of the `torch.argmax` model: the returned index
is in range, carries a maximal value, and every strictly earlier entry is
strictly smaller. -/
theorem torchArgmax_spec (l : List ℚ) (h : l ≠ []) :
    ∃ hlt : torchArgmax l < l.length,
      (∀ v ∈ l, v ≤ l.get ⟨torchArgmax l, hlt⟩) ∧
      ∀ j (hj : j < torchArgmax l),
        l.get ⟨j, lt_trans hj hlt⟩ < l.get ⟨torchArgmax l, hlt⟩ := by
  cases hm : l.maximum with
  | bot => exact absurd hm (List.maximum_ne_bot_of_ne_nil h)
  | coe m =>
    have hmem : m ∈ l := List.maximum_mem hm
    have hex : ∃ v ∈ l, (fun v => decide (v = m)) v = true := ⟨m, hmem, by simp⟩
    have hw : l.findIdx (fun v => decide (v = m)) < l.length :=
      List.findIdx_lt_length_of_exists hex
    have harg : torchArgmax l = l.findIdx (fun v => decide (v = m)) := by
      rw [torchArgmax, hm]
    have hlt2 : torchArgmax l < l.length := by rw [harg]; exact hw
    have hgetm : l.get ⟨torchArgmax l, hlt2⟩ = m := by
      have hp := @List.findIdx_getElem ℚ (fun v => decide (v = m)) l hw
      simp only [decide_eq_true_eq] at hp
      simp only [List.get_eq_getElem, harg]
      exact hp
    refine ⟨hlt2, ?_, ?_⟩
    · intro v hv
      rw [hgetm]
      exact List.le_maximum_of_mem hv hm
    · intro j hj
      have hjl : j < l.length := lt_trans hj hlt2
      have hne := @List.not_of_lt_findIdx ℚ (fun v => decide (v = m)) l j
        (by rw [← harg]; exact hj)
      simp only [decide_eq_false_iff_not] at hne
      rw [hgetm]
      refine lt_of_le_of_ne (List.le_maximum_of_mem (l.get_mem j hjl) hm) ?_
      simpa [List.get_eq_getElem] using hne

/-- C2: the continuous recommendation path under cardinality constraints
evaluates every inactive-parameter configuration when the combinatorial count
is at most `N_ITER_THRESHOLD` (10) and otherwise evaluates exactly ten
independently sampled configurations; it records one (points, acquisition
value) pair per evaluated configuration, and the returned point set is the one
at the first-seen maximum of the recorded acquisition values (ties broken by
first-seen order). -/
theorem C2_cardinality_path {α : Type} (s : ContinuousSubspaceModel α) :
    (s.configs.length ≤ N_ITER_THRESHOLD →
      (recommend_continuous_cardinality s).1 = s.configs.map s.optimize) ∧
    (N_ITER_THRESHOLD < s.configs.length →
      (recommend_continuous_cardinality s).1 =
        ((List.range N_ITER_THRESHOLD).map s.sample).map s.optimize ∧
      (recommend_continuous_cardinality s).1.length = N_ITER_THRESHOLD) ∧
    ((recommend_continuous_cardinality s).1 ≠ [] →
      ∃ i, ∃ hlt : i < (recommend_continuous_cardinality s).1.length,
        (recommend_continuous_cardinality s).2 =
          some (((recommend_continuous_cardinality s).1.get ⟨i, hlt⟩).1) ∧
        (∀ r ∈ (recommend_continuous_cardinality s).1,
          r.2 ≤ ((recommend_continuous_cardinality s).1.get ⟨i, hlt⟩).2) ∧
        ∀ j (hj : j < i),
          ((recommend_continuous_cardinality s).1.get ⟨j, lt_trans hj hlt⟩).2 <
            ((recommend_continuous_cardinality s).1.get ⟨i, hlt⟩).2) := by
  refine ⟨?_, ?_, ?_⟩
  · intro hle
    simp only [recommend_continuous_cardinality]
    rw [if_neg (by omega)]
  · intro hgt
    constructor
    · simp only [recommend_continuous_cardinality]
      rw [if_pos (by omega)]
    · simp only [recommend_continuous_cardinality]
      rw [if_pos (by omega)]
      simp [N_ITER_THRESHOLD]
  · intro hne
    have hvne : (recommend_continuous_cardinality s).1.map Prod.snd ≠ [] := by
      simpa using hne
    obtain ⟨hlt, hmax, hfirst⟩ := torchArgmax_spec _ hvne
    have hlen : ((recommend_continuous_cardinality s).1.map Prod.snd).length =
        (recommend_continuous_cardinality s).1.length := List.length_map _ _
    have hlt2 : torchArgmax ((recommend_continuous_cardinality s).1.map Prod.snd) <
        (recommend_continuous_cardinality s).1.length := by rw [← hlen]; exact hlt
    refine ⟨torchArgmax ((recommend_continuous_cardinality s).1.map Prod.snd),
      hlt2, ?_, ?_, ?_⟩
    · show ((recommend_continuous_cardinality s).1.get?
        (torchArgmax ((recommend_continuous_cardinality s).1.map Prod.snd))).map
          Prod.fst = _
      rw [List.get?_eq_get hlt2]
      rfl
    · intro r hr
      have hle := hmax r.2 (List.mem_map_of_mem Prod.snd hr)
      have hconv : ((recommend_continuous_cardinality s).1.map Prod.snd).get
          ⟨torchArgmax ((recommend_continuous_cardinality s).1.map Prod.snd), hlt⟩ =
          ((recommend_continuous_cardinality s).1.get
            ⟨torchArgmax ((recommend_continuous_cardinality s).1.map Prod.snd),
              hlt2⟩).2 := by
        simp [List.get_eq_getElem, List.getElem_map]
      rwa [hconv] at hle
    · intro j hj
      have hstep := hfirst j hj
      have hconv1 : ((recommend_continuous_cardinality s).1.map Prod.snd).get
          ⟨j, lt_trans hj hlt⟩ =
          ((recommend_continuous_cardinality s).1.get ⟨j, lt_trans hj hlt2⟩).2 := by
        simp [List.get_eq_getElem, List.getElem_map]
      have hconv2 : ((recommend_continuous_cardinality s).1.map Prod.snd).get
          ⟨torchArgmax ((recommend_continuous_cardinality s).1.map Prod.snd), hlt⟩ =
          ((recommend_continuous_cardinality s).1.get
            ⟨torchArgmax ((recommend_continuous_cardinality s).1.map Prod.snd),
              hlt2⟩).2 := by
        simp [List.get_eq_getElem, List.getElem_map]
      rwa [hconv1, hconv2] at hstep

/-- Witness for C2: with two configurations (count at most 10) the full
enumeration is evaluated. -/
theorem C2_witness :
    (recommend_continuous_cardinality sEx).1 = sEx.configs.map sEx.optimize :=
  (C2_cardinality_path sEx).1 (by decide)

/-- C6: for every batch size above 1 with a non-Monte-Carlo acquisition
function, each of the discrete, continuous and hybrid recommendation paths
returns the incompatible-acquisition-function error (named
`NoMCAcquisitionFunctionError` in the code) with zero external optimizer
calls, i.e. the guard fires before any optimizer work. -/
theorem C6_no_mc_guard {α β γ δ : Type} (acqf : AcquisitionFunction)
    (batch_size : ℕ) (hb : 1 < batch_size) (hmc : acqf.is_mc = false)
    (candidates : List α) (optimize_acqf_discrete : ℕ → List α → β)
    (match_indices : β → List ℕ) (s : ContinuousSubspaceModel γ)
    (optimize_acqf_mixed : ℕ → δ) (merge_results : δ → List ℚ) :
    recommend_discrete acqf batch_size candidates optimize_acqf_discrete
        match_indices =
      (Except.error (RecommenderError.noMCAcquisitionFunction noMCMessage), 0) ∧
    recommend_continuous acqf batch_size s =
      (Except.error (RecommenderError.noMCAcquisitionFunction noMCMessage), 0) ∧
    recommend_hybrid acqf batch_size optimize_acqf_mixed merge_results =
      (Except.error (RecommenderError.noMCAcquisitionFunction noMCMessage), 0) := by
  refine ⟨?_, ?_, ?_⟩
  · rw [recommend_discrete, if_pos (And.intro hb hmc)]
  · rw [recommend_continuous, if_pos (And.intro hb hmc)]
  · rw [recommend_hybrid, if_pos (And.intro hb hmc)]

/-- Witness for C6: batch size 2 with a non-Monte-Carlo acquisition function
on concrete collaborator instances. -/
theorem C6_witness :
    1 < 2 ∧ (AcquisitionFunction.mk false).is_mc = false ∧
    (recommend_discrete (AcquisitionFunction.mk false) 2 ([] : List ℕ)
        (fun _ _ => 0) (fun _ => []) =
      (Except.error (RecommenderError.noMCAcquisitionFunction noMCMessage), 0) ∧
    recommend_continuous (AcquisitionFunction.mk false) 2 sEx =
      (Except.error (RecommenderError.noMCAcquisitionFunction noMCMessage), 0) ∧
    recommend_hybrid (AcquisitionFunction.mk false) 2 (fun _ => (0 : ℕ))
        (fun _ => ([] : List ℚ)) =
      (Except.error (RecommenderError.noMCAcquisitionFunction noMCMessage), 0)) :=
  ⟨by decide, rfl,
    C6_no_mc_guard (AcquisitionFunction.mk false) 2 (by decide) rfl
      ([] : List ℕ) (fun _ _ => 0) (fun _ => []) sEx (fun _ => (0 : ℕ))
      (fun _ => ([] : List ℚ))⟩

end Baybe
